import Mathlib

/-!
Verification of the s3x ledger-and-DAG engine against its specification.

The Go source is shallowly embedded: protobuf maps become association
lists (`List (String × α)`), with `Option` distinguishing a nil Go map
(whose reads yield zero values but whose writes panic) from an empty one.
Go runtime faults (nil-map assignment, nil-pointer dereference, slice
bounds) are modelled as explicit `panicked` outcomes.  `int64` arithmetic
is `Int` with explicit wrapping where the source may overflow.
-/

/-- Association-list lookup, mirroring Go map indexing with comma-ok. -/
def lookupA {α : Type} (m : List (String × α)) (k : String) : Option α :=
  match m with
  | [] => none
  | (k', v) :: t => if k' = k then some v else lookupA t k

/-- Association-list insert/overwrite, mirroring Go map assignment. -/
def insertA {α : Type} (m : List (String × α)) (k : String) (v : α) : List (String × α) :=
  match m with
  | [] => [(k, v)]
  | (k', v') :: t => if k' = k then (k, v) :: t else (k', v') :: insertA t k v

/-- Association-list removal, mirroring Go `delete`. -/
def eraseA {α : Type} (m : List (String × α)) (k : String) : List (String × α) :=
  match m with
  | [] => []
  | (k', v') :: t => if k' = k then t else (k', v') :: eraseA t k

theorem lookupA_insertA_self {α : Type} (m : List (String × α)) (k : String) (v : α) :
    lookupA (insertA m k v) k = some v := by
  induction m with
  | nil => simp [insertA, lookupA]
  | cons hd t ih =>
    obtain ⟨k', v'⟩ := hd
    by_cases h : k' = k
    · simp [insertA, lookupA, h]
    · simp [insertA, lookupA, h, ih]

theorem lookupA_insertA_ne {α : Type} (m : List (String × α)) (k k' : String) (v : α)
    (h : k ≠ k') : lookupA (insertA m k v) k' = lookupA m k' := by
  induction m with
  | nil => simp [insertA, lookupA, h]
  | cons hd t ih =>
    obtain ⟨k0, v0⟩ := hd
    by_cases h0 : k0 = k
    · subst h0
      simp [insertA, lookupA, h]
    · simp only [insertA, if_neg h0]
      by_cases h1 : k0 = k'
      · simp [lookupA, h1]
      · simp [lookupA, h1, ih]

theorem lookupA_mem {α : Type} {m : List (String × α)} {k : String} {v : α}
    (h : lookupA m k = some v) : (k, v) ∈ m := by
  induction m with
  | nil => simp [lookupA] at h
  | cons hd t ih =>
    obtain ⟨k', v'⟩ := hd
    by_cases h0 : k' = k
    · subst h0
      simp [lookupA] at h
      simp [h]
    · simp only [lookupA, if_neg h0] at h
      exact List.mem_cons_of_mem _ (ih h)

theorem mem_insertA {α : Type} {m : List (String × α)} {k : String} {v : α} {p : String × α}
    (h : p ∈ insertA m k v) : p = (k, v) ∨ p ∈ m := by
  induction m with
  | nil => simp only [insertA, List.mem_singleton] at h; exact Or.inl h
  | cons hd t ih =>
    obtain ⟨k', v'⟩ := hd
    by_cases h0 : k' = k
    · simp only [insertA, if_pos h0] at h
      rcases List.mem_cons.mp h with h1 | h1
      · exact Or.inl h1
      · exact Or.inr (List.mem_cons_of_mem _ h1)
    · simp only [insertA, if_neg h0] at h
      rcases List.mem_cons.mp h with h1 | h1
      · exact Or.inr (by simp [h1])
      · rcases ih h1 with h2 | h2
        · exact Or.inl h2
        · exact Or.inr (List.mem_cons_of_mem _ h2)

theorem mem_eraseA {α : Type} {m : List (String × α)} {k : String} {p : String × α}
    (h : p ∈ eraseA m k) : p ∈ m := by
  induction m with
  | nil => simp [eraseA] at h
  | cons hd t ih =>
    obtain ⟨k', v'⟩ := hd
    by_cases h0 : k' = k
    · simp only [eraseA, if_pos h0] at h
      exact List.mem_cons_of_mem _ h
    · simp only [eraseA, if_neg h0] at h
      rcases List.mem_cons.mp h with h1 | h1
      · simp [h1]
      · exact List.mem_cons_of_mem _ (ih h1)

/-! ## Old-generation ledger store (src/unnamed/part_000)

The datastore holds one serialized `Ledger`; `getLedger` unmarshals a
fresh copy on every call and `putLedger` writes a copy back, so the
protobuf marshal/unmarshal round trip is composed away and the state is
the `Ledger` value held by the datastore. -/

/-- Protobuf `LedgerObjectEntry`: object name and its IPFS CID. -/
structure LedgerObjectEntry where
  name : String
  ipfsHash : String
deriving DecidableEq

/-- Protobuf `LedgerBucketEntry`; `objects` is `none` when the Go map is nil. -/
structure LedgerBucketEntry where
  objects : Option (List (String × LedgerObjectEntry))
  name : String
  ipfsHash : String
deriving DecidableEq

/-- Protobuf `Ledger` (old generation); `buckets` is `none` when the Go map is nil. -/
structure OldLedger where
  buckets : Option (List (String × LedgerBucketEntry))
deriving DecidableEq

/-- Zero value of `LedgerObjectEntry`, produced by indexing a missing key. -/
def zeroObjEntry : LedgerObjectEntry := { name := "", ipfsHash := "" }

/-- Zero value of `LedgerBucketEntry`, produced by indexing a missing key. -/
def zeroBucketEntry : LedgerBucketEntry := { objects := none, name := "", ipfsHash := "" }

/-- `ledger.GetBuckets()`: reading a nil map behaves like an empty one. -/
def getBucketsGo (l : OldLedger) : List (String × LedgerBucketEntry) :=
  l.buckets.getD []

/-- `ledger.GetBuckets()[name]`: Go map read returning the zero value when missing. -/
def bucketEntryGo (l : OldLedger) (name : String) : LedgerBucketEntry :=
  (lookupA (getBucketsGo l) name).getD zeroBucketEntry

/-- `entry.Objects[object]`: Go map read returning the zero value when missing. -/
def objEntryGo (be : LedgerBucketEntry) (object : String) : LedgerObjectEntry :=
  (lookupA (be.objects.getD []) object).getD zeroObjEntry

/-- Errors raised by the old-generation `LedgerStore`. -/
inductive OldErr where
  | bucketExists
  | bucketNotFound
  | objectNotFound
deriving DecidableEq

/-- `LedgerStore.bucketExists`: an entry counts as existing iff its `Name` is non-empty. -/
def bucketExistsGo (l : OldLedger) (name : String) : Bool :=
  (bucketEntryGo l name).name ≠ ""

/-- `LedgerStore.objectExists`: existence of bucket then object, each decided by
the stored entry's `Name` field being non-empty. -/
def objectExistsGo (l : OldLedger) (bucket object : String) : Option OldErr :=
  if (bucketEntryGo l bucket).name = "" then some .bucketNotFound
  else if (objEntryGo (bucketEntryGo l bucket) object).name = "" then some .objectNotFound
  else none

/-- `LedgerStore.NewBucket`: fresh entry with an empty (non-nil) objects map,
persisted via `putLedger`. -/
def newBucketGo (st : OldLedger) (name hash : String) : Except OldErr OldLedger :=
  if bucketExistsGo st name then .error .bucketExists
  else
    .ok { buckets := some (insertA (getBucketsGo st) name
            { objects := some [], name := name, ipfsHash := hash }) }

/-- `LedgerStore.UpdateBucketHash`: replaces the entry's `IpfsHash`, persisted. -/
def updateBucketHashGo (st : OldLedger) (name hash : String) : Except OldErr OldLedger :=
  if ¬ bucketExistsGo st name then .error .bucketNotFound
  else
    let entry := bucketEntryGo st name
    .ok { buckets := some (insertA (getBucketsGo st) name { entry with ipfsHash := hash }) }

/-- `LedgerStore.AddObjectToBucket`: installs `{Name, IpfsHash}` under the object
name, allocating the objects map first when it is nil, persisted. -/
def addObjectToBucketGo (st : OldLedger) (bucketName objectName objectHash : String) :
    Except OldErr OldLedger :=
  if ¬ bucketExistsGo st bucketName then .error .bucketNotFound
  else
    let be := bucketEntryGo st bucketName
    let objs := be.objects.getD []
    .ok { buckets := some (insertA (getBucketsGo st) bucketName
            { be with objects := some (insertA objs objectName
                { name := objectName, ipfsHash := objectHash }) }) }

/-- `LedgerStore.RemoveObject`: after the existence check it deletes the object
from the unmarshalled copy only — the function returns without calling
`putLedger`, so the datastore keeps the prior ledger unchanged. -/
def removeObjectGo (st : OldLedger) (bucketName objectName : String) :
    Except OldErr OldLedger :=
  match objectExistsGo st bucketName objectName with
  | some e => .error e
  | none => .ok st

/-- `LedgerStore.DeleteBucket`: removes the bucket entry, persisted. -/
def deleteBucketGo (st : OldLedger) (name : String) : Except OldErr OldLedger :=
  if (bucketEntryGo st name).name = "" then .error .bucketNotFound
  else .ok { buckets := some (eraseA (getBucketsGo st) name) }

/-- States of the old-generation ledger datastore reachable from
`createLedgerIfNotExist` (which stores `new(Ledger)`) through the public
setter functions. -/
inductive OldReachable : OldLedger → Prop where
  | init : OldReachable { buckets := none }
  | newBucket {st st' : OldLedger} {n h : String} :
      OldReachable st → newBucketGo st n h = .ok st' → OldReachable st'
  | updateBucketHash {st st' : OldLedger} {n h : String} :
      OldReachable st → updateBucketHashGo st n h = .ok st' → OldReachable st'
  | addObject {st st' : OldLedger} {b o h : String} :
      OldReachable st → addObjectToBucketGo st b o h = .ok st' → OldReachable st'
  | removeObject {st st' : OldLedger} {b o : String} :
      OldReachable st → removeObjectGo st b o = .ok st' → OldReachable st'
  | deleteBucket {st st' : OldLedger} {n : String} :
      OldReachable st → deleteBucketGo st n = .ok st' → OldReachable st'

/-- Every bucket entry of a reachable ledger is stored under its own `Name`. -/
def OldInv (st : OldLedger) : Prop :=
  ∀ p ∈ getBucketsGo st, (p.2).name = p.1

theorem oldInv_of_reachable {st : OldLedger} (h : OldReachable st) : OldInv st := by
  induction h with
  | init => intro p hp; simp [getBucketsGo] at hp
  | newBucket hr hop ih =>
    rename_i st st' n hh
    intro p hp
    simp only [newBucketGo] at hop
    split at hop
    · exact absurd hop (by simp)
    · cases hop
      simp only [getBucketsGo] at hp
      rcases mem_insertA hp with h1 | h1
      · subst h1; rfl
      · exact ih p h1
  | updateBucketHash hr hop ih =>
    rename_i st st' n hh
    intro p hp
    simp only [updateBucketHashGo] at hop
    split at hop
    · exact absurd hop (by simp)
    · cases hop
      simp only [getBucketsGo] at hp
      rcases mem_insertA hp with h1 | h1
      · subst h1
        rename_i hex
        simp only [bucketExistsGo, Bool.not_eq_true] at hex
        have hname : (bucketEntryGo st n).name ≠ "" := by
          simpa [bucketExistsGo] using hex
        simp only [bucketEntryGo] at hname
        cases hl : lookupA (getBucketsGo st) n with
        | none => simp [hl] at hname; exact absurd rfl hname
        | some be =>
          have := ih (n, be) (lookupA_mem hl)
          simp only [bucketEntryGo, hl, Option.getD_some]
          exact this
      · exact ih p h1
  | addObject hr hop ih =>
    rename_i st st' b o hh
    intro p hp
    simp only [addObjectToBucketGo] at hop
    split at hop
    · exact absurd hop (by simp)
    · cases hop
      simp only [getBucketsGo] at hp
      rcases mem_insertA hp with h1 | h1
      · subst h1
        rename_i hex
        have hname : (bucketEntryGo st b).name ≠ "" := by
          simpa [bucketExistsGo] using hex
        simp only [bucketEntryGo] at hname ⊢
        cases hl : lookupA (getBucketsGo st) b with
        | none => simp [hl] at hname; exact absurd rfl hname
        | some be =>
          have := ih (b, be) (lookupA_mem hl)
          simp only [bucketEntryGo, hl, Option.getD_some]
          exact this
      · exact ih p h1
  | removeObject hr hop ih =>
    rename_i st st' b o
    intro p hp
    simp only [removeObjectGo] at hop
    split at hop
    · exact absurd hop (by simp)
    · cases hop
      exact ih p hp
  | deleteBucket hr hop ih =>
    rename_i st st' n
    intro p hp
    simp only [deleteBucketGo] at hop
    split at hop
    · exact absurd hop (by simp)
    · cases hop
      simp only [getBucketsGo] at hp
      exact ih p (mem_eraseA hp)

/-! ## C3 and C10: old-generation ledger theorems -/

/-- Bucket "b" freshly created with hash "bh". -/
def stOldB : OldLedger :=
  { buckets := some [("b", { objects := some [], name := "b", ipfsHash := "bh" })] }

/-- `stOldB` after adding object "o" with hash "oh". -/
def stOldC : OldLedger :=
  { buckets := some [("b",
      { objects := some [("o", { name := "o", ipfsHash := "oh" })],
        name := "b", ipfsHash := "bh" })] }

/-- C3: after creating bucket "b" and object "o", `RemoveObject` reports success
yet returns the datastore unchanged (it never calls `putLedger`), so the object
still exists afterwards and a subsequent `GetObject` does not fail with
`ObjectNotFound` — refuting the claim that deletion is observable. -/
theorem c3_remove_object_not_persisted :
    newBucketGo { buckets := none } "b" "bh" = .ok stOldB ∧
    addObjectToBucketGo stOldB "b" "o" "oh" = .ok stOldC ∧
    removeObjectGo stOldC "b" "o" = .ok stOldC ∧
    objectExistsGo stOldC "b" "o" = none :=
  ⟨rfl, rfl, rfl, rfl⟩

theorem bucketEntry_empty_name_of_reachable {st : OldLedger} (hr : OldReachable st) :
    (bucketEntryGo st "").name = "" := by
  have hinv := oldInv_of_reachable hr
  cases hl : lookupA (getBucketsGo st) "" with
  | none => simp [bucketEntryGo, hl, zeroBucketEntry]
  | some be =>
    have := hinv ("", be) (lookupA_mem hl)
    simp only [bucketEntryGo, hl, Option.getD_some]
    exact this

/-- C10: existence is decided solely by the stored `Name` field being non-empty,
so an entry stored under the empty object name is unobservable: adding object
`""` to an existing bucket succeeds, yet `objectExists` still reports
`ObjectNotFound` for it, the resulting state is reachable, and on every
reachable state `BucketExists ""` is false. -/
theorem c10_empty_name_unobservable (st : OldLedger) (b h : String)
    (hr : OldReachable st) (hb : bucketExistsGo st b = true) :
    ∃ st', addObjectToBucketGo st b "" h = .ok st' ∧
      objectExistsGo st' b "" = some OldErr.objectNotFound ∧
      OldReachable st' ∧
      ∀ st2, OldReachable st2 → bucketExistsGo st2 "" = false := by
  have hbname : ¬ ((lookupA (st.buckets.getD []) b).getD zeroBucketEntry).name = "" := by
    simpa [bucketExistsGo, bucketEntryGo, getBucketsGo] using hb
  have hop : addObjectToBucketGo st b "" h = .ok
      { buckets := some (insertA (getBucketsGo st) b
          { bucketEntryGo st b with objects := some (insertA
              ((bucketEntryGo st b).objects.getD []) ""
              { name := "", ipfsHash := h }) }) } := by
    simp [addObjectToBucketGo, hb]
  refine ⟨_, hop, ?_, OldReachable.addObject hr hop, ?_⟩
  · simp [objectExistsGo, bucketEntryGo, getBucketsGo, objEntryGo,
      lookupA_insertA_self, hbname]
  · intro st2 hr2
    simp [bucketExistsGo, bucketEntry_empty_name_of_reachable hr2]

/-- Witness for `c10_empty_name_unobservable` at the concrete reachable state
`stOldB`. -/
theorem c10_empty_name_unobservable_witness :
    ∃ st', addObjectToBucketGo stOldB "b" "" "x" = .ok st' ∧
      objectExistsGo st' "b" "" = some OldErr.objectNotFound ∧
      OldReachable st' ∧
      ∀ st2, OldReachable st2 → bucketExistsGo st2 "" = false := by
  exact c10_empty_name_unobservable stOldB "b" "x"
    (OldReachable.newBucket OldReachable.init rfl) rfl

/-! ## New-generation ledger engine (gateway-s3x-object.go, current revision)

The bucket cache, the index pointer and the DAG-stored bucket/object records
are composed into one state: each bucket record holds its object records
directly, and the DAG block store keeps only raw data blocks keyed by CID. -/

set_option linter.unusedVariables false

/-- Protobuf `ObjectInfo` (the fields the engine reads and writes). -/
structure SxObjectInfo where
  bucket : String
  name : String
  size_ : Int
  modTime : Nat
  contentEncoding : String
  contentDisposition : String
  contentLanguage : String
  contentType : String
deriving DecidableEq

/-- Protobuf `Object`: a data CID plus its `ObjectInfo`. -/
structure SxObject where
  dataHash : String
  objectInfo : SxObjectInfo
deriving DecidableEq

/-- Protobuf `ObjectPartInfo` (the fields `PutObjectPart` writes). -/
structure SxObjectPartInfo where
  number : Int
  dataHash : String
deriving DecidableEq

/-- Protobuf `MultipartUpload`; `objectParts` is `none` when the Go map is nil. -/
structure SxMultipartUpload where
  objectInfo : SxObjectInfo
  id : String
  objectParts : Option (List (String × SxObjectPartInfo))
deriving DecidableEq

/-- Modelled from the spec: the bucket record of §3 with the object-record CID
indirection composed away — each object name maps directly to the object
record its CID would resolve to. -/
structure BucketRec where
  name : String
  created : Nat
  location : String
  objects : List (String × SxObject)
deriving DecidableEq

/-- The composed engine state: bucket records, raw DAG blocks keyed by CID and
the ledger's multipart-upload registry (`none` when the Go map is nil). -/
structure LedgerState where
  buckets : List (String × BucketRec)
  dag : List (String × List Nat)
  multipartUploads : Option (List (String × SxMultipartUpload))
deriving DecidableEq

/-- The engine's error taxonomy; `panicked` records a Go runtime fault
(nil-map assignment, nil-pointer dereference or slice bounds violation). -/
inductive SxErr where
  | bucketNotFound
  | objectNotFound
  | blockNotFound
  | invalidUploadID
  | invalidRange (offsetBegin offsetEnd resourceSize : Int)
  | panicked
deriving DecidableEq

/-- Zero value of `SxObjectInfo`, returned by the nil-safe protobuf getter. -/
def zeroSxObjectInfo : SxObjectInfo :=
  { bucket := "", name := "", size_ := 0, modTime := 0, contentEncoding := "",
    contentDisposition := "", contentLanguage := "", contentType := "" }

/-- Modelled from the spec: the content identifier of a byte string — a
deterministic injective function of the bytes, treated as a short string. -/
def cidOf (bs : List Nat) : String :=
  "cid" ++ String.join (bs.map (fun b => "-" ++ toString b))

/-- Modelled from the spec: the missing new-generation `ledgerStore`
bucket-existence check (`bucketExists` / `AssertBucketExits`) — a bucket
exists iff the index holds its `buckets/<name>` pointer. -/
def sxBucketExists (st : LedgerState) (bucket : String) : Bool :=
  (lookupA st.buckets bucket).isSome

/-- Modelled from the spec: the missing `ledgerStore.object` — loads the
bucket record and resolves the object entry, `none` when absent. -/
def lsObject (st : LedgerState) (bucket object : String) :
    Except SxErr (Option SxObject) :=
  match lookupA st.buckets bucket with
  | none => .error .bucketNotFound
  | some b => .ok (lookupA b.objects object)

/-- Modelled from the spec: the missing `ledgerStore.putObject` — installs the
object record into the bucket record and re-saves the bucket. -/
def lsPutObject (st : LedgerState) (bucket object : String) (obj : SxObject) :
    Except SxErr LedgerState :=
  match lookupA st.buckets bucket with
  | none => .error .bucketNotFound
  | some b =>
    .ok { st with
          buckets := insertA st.buckets bucket
            ({ b with objects := insertA b.objects object obj }) }

/-- Modelled from the spec: `ipfsSaveBytes` stores a raw block under its CID
and returns the CID. -/
def ipfsSaveBytesM (st : LedgerState) (data : List Nat) : LedgerState × String :=
  ({ st with dag := insertA st.dag (cidOf data) data }, cidOf data)

/-- Modelled from the spec: the missing `ledgerStore.ObjectData` — resolves
the object record and loads its `dataHash` block. -/
def objectData (st : LedgerState) (bucket object : String) : Except SxErr (List Nat) :=
  match lsObject st bucket object with
  | .error e => .error e
  | .ok none => .error .objectNotFound
  | .ok (some obj) =>
    match lookupA st.dag obj.dataHash with
    | none => .error .blockNotFound
    | some data => .ok data

/-- `int64` two's-complement wrap of an integer expression. -/
def int64wrap (x : Int) : Int := (x + 2 ^ 63) % 2 ^ 64 - 2 ^ 63

/-- The body of `xObjects.GetObject` after `ObjectData`: `end := startOffset +
length` (`int64`), the `InvalidRange` check `objSize < end`, then the Go slice
`objData[startOffset:end]`, which panics when `startOffset < 0` or
`startOffset > end`. -/
def getObjectRange (objData : List Nat) (startOffset length : Int) :
    Except SxErr (List Nat) :=
  let endOff := int64wrap (startOffset + length)
  let objSize : Int := objData.length
  if objSize < endOff then .error (.invalidRange startOffset endOff objSize)
  else if 0 ≤ startOffset ∧ startOffset ≤ endOff then
    .ok ((objData.drop startOffset.toNat).take (endOff - startOffset).toNat)
  else .error .panicked

/-- `xObjects.GetObject` (new generation). -/
def xGetObject (st : LedgerState) (bucket object : String) (startOffset length : Int) :
    Except SxErr (List Nat) :=
  match objectData st bucket object with
  | .error e => .error e
  | .ok objData => getObjectRange objData startOffset length

/-- One iteration of `newObjectInfo`'s loop over `opts.UserDefined`: the
`switch strings.ToLower(k)` over the recognised content headers. -/
def applyHeader (oi : SxObjectInfo) (kv : String × String) : SxObjectInfo :=
  if kv.1.toLower = "content-encoding" then { oi with contentEncoding := kv.2 }
  else if kv.1.toLower = "content-disposition" then { oi with contentDisposition := kv.2 }
  else if kv.1.toLower = "content-language" then { oi with contentLanguage := kv.2 }
  else if kv.1.toLower = "content-type" then { oi with contentType := kv.2 }
  else oi

/-- `newObjectInfo`: size, modification time zeroed under `isTest`, and the
recognised user-defined content headers. -/
def newObjectInfo (bucket object : String) (size : Nat)
    (userDefined : List (String × String)) (isTest : Bool) (now : Nat) : SxObjectInfo :=
  let base : SxObjectInfo :=
    { bucket := bucket, name := object, size_ := size,
      modTime := if isTest then 0 else now,
      contentEncoding := "", contentDisposition := "", contentLanguage := "",
      contentType := "" }
  userDefined.foldl applyHeader base

/-- `xObjects.PutObject` (new generation): bucket assertion, `newObjectInfo`,
`ipfsSaveBytes`, then `ledgerStore.PutObject` of `{DataHash, ObjectInfo}`. -/
def xPutObject (st : LedgerState) (bucket object : String) (data : List Nat)
    (userDefined : List (String × String)) (isTest : Bool) (now : Nat) :
    Except SxErr (LedgerState × SxObjectInfo) :=
  if ¬ sxBucketExists st bucket then .error .bucketNotFound
  else
    let obinfo := newObjectInfo bucket object data.length userDefined isTest now
    let saved := ipfsSaveBytesM st data
    match lsPutObject saved.1 bucket object { dataHash := saved.2, objectInfo := obinfo } with
    | .error e => .error e
    | .ok st' => .ok (st', obinfo)

/-- `xObjects.CopyObject` (new generation): destination-bucket assertion,
source record load, marshal/unmarshal deep copy (the identity on the modelled
record), update of `Name`, `Bucket` and `ModTime`, then `putObject` into the
destination. -/
def xCopyObject (st : LedgerState) (srcBucket srcObject dstBucket dstObject : String)
    (now : Nat) : Except SxErr (LedgerState × SxObjectInfo) :=
  if ¬ sxBucketExists st dstBucket then .error .bucketNotFound
  else
    match lsObject st srcBucket srcObject with
    | .error e => .error e
    | .ok none => .error .objectNotFound
    | .ok (some obj1) =>
      let obj : SxObject := { obj1 with objectInfo :=
        { obj1.objectInfo with name := dstObject, bucket := dstBucket, modTime := now } }
      match lsPutObject st dstBucket dstObject obj with
      | .error e => .error e
      | .ok st' => .ok (st', obj.objectInfo)

/-- Byte-wise (code-point-wise) strict comparison of character lists, the
order Go uses on strings. -/
def charsLtB : List Char → List Char → Bool
  | [], [] => false
  | [], _ :: _ => true
  | _ :: _, [] => false
  | a :: as, b :: bs =>
    if a.toNat < b.toNat then true
    else if b.toNat < a.toNat then false
    else charsLtB as bs

/-- Go string `<`. -/
def strLtB (a b : String) : Bool := charsLtB a.data b.data

/-- Go string `<=`. -/
def strLeB (a b : String) : Bool := !(strLtB b a)

/-- Whether the first character list is a prefix of the second. -/
def charsPrefixB : List Char → List Char → Bool
  | [], _ => true
  | _ :: _, [] => false
  | a :: as, b :: bs => a = b && charsPrefixB as bs

/-- Go `strings.HasPrefix s pre`. -/
def goHasPfx (s pre : String) : Bool := charsPrefixB pre.data s.data

/-- Go `strings.Compare`. -/
def goCompare (a b : String) : Int :=
  if strLtB a b then -1 else if a = b then 0 else 1

/-- Sorted insertion of a string into an ascending list. -/
def insertSorted (s : String) : List String → List String
  | [] => [s]
  | x :: t => if strLeB s x then s :: x :: t else x :: insertSorted s t

/-- `sort.Strings`: ascending lexicographic sort. -/
def sortStrings (l : List String) : List String := l.foldr insertSorted []

/-- `ledgerStore.GetObjectInfos`: collect the bucket's object names passing
`strings.HasPrefix(name, prefix) && strings.Compare(startsFrom, name) >= 0`,
sort ascending, truncate to `max` when `max > 0`, and project each selected
object's `ObjectInfo`. -/
def getObjectInfos (st : LedgerState) (bucket pfx startsFrom : String) (maxKeys : Int) :
    Except SxErr (List SxObjectInfo) :=
  match lookupA st.buckets bucket with
  | none => .error .bucketNotFound
  | some b =>
    let names := (b.objects.map Prod.fst).filter
      (fun name => goHasPfx name pfx && decide (0 ≤ goCompare startsFrom name))
    let names := sortStrings names
    let names := if 0 < maxKeys ∧ maxKeys < (names.length : Int)
      then names.take maxKeys.toNat else names
    names.mapM (fun name =>
      match lsObject st bucket name with
      | .error e => .error e
      | .ok obj =>
        .ok ((obj.getD { dataHash := "", objectInfo := zeroSxObjectInfo }).objectInfo))

/-- `Ledger.multipartExists`: a nil uploads map yields `InvalidUploadID`; an
absent id makes `m.MultipartUploads[id]` a nil `*MultipartUpload`, and the
`.Id` selector then dereferences a nil pointer — a runtime panic. -/
def multipartExists (uploads : Option (List (String × SxMultipartUpload))) (id : String) :
    Option SxErr :=
  match uploads with
  | none => some .invalidUploadID
  | some m =>
    match lookupA m id with
    | none => some .panicked
    | some up => if up.id = "" then some .invalidUploadID else none

/-- `ledgerStore.NewMultipartUpload`: bucket assertion, allocation of the
uploads map when nil, and insertion of an upload whose `ObjectParts` map is
left nil. -/
def newMultipartUpload (st : LedgerState) (multipartID : String) (info : SxObjectInfo) :
    Except SxErr LedgerState :=
  if ¬ sxBucketExists st info.bucket then .error .bucketNotFound
  else
    .ok { st with multipartUploads := some (insertA (st.multipartUploads.getD [])
      multipartID { objectInfo := info, id := multipartID, objectParts := none }) }

/-- `ledgerStore.PutObjectPart`: bucket assertion, comma-ok lookup of the id
(reading a nil map is safe), then assignment into the upload's `ObjectParts`
map — which panics when that map is nil. `objectName` is unused, as in the
source. -/
def putObjectPart (st : LedgerState) (bucketName objectName partHash multipartID : String)
    (partNumber : Int) : Except SxErr LedgerState :=
  if ¬ sxBucketExists st bucketName then .error .bucketNotFound
  else
    match lookupA (st.multipartUploads.getD []) multipartID with
    | none => .error .invalidUploadID
    | some mpart =>
      match mpart.objectParts with
      | none => .error .panicked
      | some parts =>
        .ok { st with multipartUploads := some (insertA (st.multipartUploads.getD [])
          multipartID { mpart with objectParts := some (insertA parts partHash
            { number := partNumber, dataHash := partHash }) }) }

/-- `ledgerStore.AbortMultipartUpload`: bucket-existence check, the
`multipartExists` validation, then `deleteMultipartID`. -/
def abortMultipartUpload (st : LedgerState) (bucket multipartID : String) :
    Except SxErr LedgerState :=
  if ¬ sxBucketExists st bucket then .error .bucketNotFound
  else
    match multipartExists st.multipartUploads multipartID with
    | some e => .error e
    | none => .ok { st with multipartUploads :=
        st.multipartUploads.map (fun m => eraseA m multipartID) }

/-- `ledgerStore.MultipartIDExists`. -/
def multipartIDExists (st : LedgerState) (id : String) : Option SxErr :=
  multipartExists st.multipartUploads id

/-- `ledgerStore.GetObjectParts`: `multipartExists` validation, then the
upload's `ObjectParts` map. -/
def getObjectParts (st : LedgerState) (id : String) :
    Except SxErr (Option (List (String × SxObjectPartInfo))) :=
  match multipartExists st.multipartUploads id with
  | some e => .error e
  | none => .ok ((lookupA (st.multipartUploads.getD []) id).bind (fun up => up.objectParts))

/-! ## CopyObject lock acquisition order (C4) -/

/-- Reader or writer lock on a bucket name. -/
inductive LockMode where
  | read
  | write
deriving DecidableEq

/-- The bucket locks `CopyObject` acquires, in evaluation order: each
`defer locker.read(...)()` / `defer locker.write(...)()` statement acquires
its lock immediately and defers only the unlock. -/
def copyObjectLocks (srcBucket dstBucket : String) : List (String × LockMode) :=
  if srcBucket = dstBucket then [(dstBucket, .write)]
  else if 0 < goCompare srcBucket dstBucket then
    [(srcBucket, .read), (dstBucket, .write)]
  else
    [(dstBucket, .write), (srcBucket, .read)]

/-- Whether consecutive lock names are strictly ascending. -/
def ascendingNames : List (String × LockMode) → Bool
  | [] => true
  | [_] => true
  | a :: b :: t => strLtB a.1 b.1 && ascendingNames (b :: t)

/-- Whether consecutive lock names are strictly descending. -/
def descendingNames : List (String × LockMode) → Bool
  | [] => true
  | [_] => true
  | a :: b :: t => strLtB b.1 a.1 && descendingNames (b :: t)

/-! ## CRDT DAG syncer (crdt_dagsyncer.go, C8) -/

/-- Errors of `crdtDAGSyncer.Get`. -/
inductive DagGetErr where
  | transport
  | cidMismatch
  | decodeFailed
deriving DecidableEq

/-- `crdtDAGSyncer.Get`: the node's reply (`none` on transport failure), the
recomputed-CID integrity check `block.Cid() != c`, `ipld.Decode`, and
`setBlock`, which marks the CID as locally available.  `cidFn` abstracts the
CID recomputation of `blocks.NewBlock` and `decodeFn` abstracts IPLD
decoding. -/
def crdtGet {Node : Type} (cidFn : List Nat → String) (decodeFn : List Nat → Option Node)
    (hasBlocks : List String) (resp : Option (List Nat)) (c : String) :
    Except DagGetErr (Node × List String) :=
  match resp with
  | none => .error .transport
  | some raw =>
    if cidFn raw ≠ c then .error .cidMismatch
    else
      match decodeFn raw with
      | none => .error .decodeFailed
      | some n => .ok (n, c :: hasBlocks)

/-! ## C4: CopyObject lock ordering -/

/-- C4 counterexample: with source "a" and destination "b", `CopyObject`
acquires the write lock on "b" before the read lock on "a", so the two locks
are not acquired in ascending lexicographic order of bucket name. -/
theorem c4_counterexample :
    copyObjectLocks "a" "b" = [("b", LockMode.write), ("a", LockMode.read)] ∧
    ascendingNames (copyObjectLocks "a" "b") = false := by
  constructor
  · rfl
  · rfl

theorem charsLtB_false_of_ne {as bs : List Char} (h : charsLtB as bs = false)
    (hne : as ≠ bs) : charsLtB bs as = true := by
  induction as generalizing bs with
  | nil =>
    cases bs with
    | nil => exact absurd rfl hne
    | cons b bs => simp [charsLtB] at h
  | cons a as ih =>
    cases bs with
    | nil => simp [charsLtB]
    | cons b bs =>
      by_cases h1 : a.toNat < b.toNat
      · simp [charsLtB, h1] at h
      · by_cases h2 : b.toNat < a.toNat
        · simp [charsLtB, h2]
        · have hab : a = b := Char.eq_of_val_eq
            (UInt32.ext (Nat.le_antisymm (Nat.not_lt.mp h2) (Nat.not_lt.mp h1)))
          subst hab
          simp only [charsLtB, if_neg h1, if_neg h2] at h ⊢
          exact ih h (fun hc => hne (by rw [hc]))

theorem strLtB_false_of_ne {a b : String} (h : strLtB a b = false) (hne : a ≠ b) :
    strLtB b a = true := by
  refine charsLtB_false_of_ne h (fun hc => hne ?_)
  cases a
  cases b
  simp only at hc
  rw [hc]

/-- C4 (amended): `CopyObject` acquires its two bucket locks in descending
lexicographic order of bucket name — the read lock on the source and the
write lock on the destination — regardless of which bucket is source and
which is destination; when the names are equal exactly one lock is taken,
the write lock on the destination. -/
theorem c4_locks_descending (s d : String) :
    (s = d → copyObjectLocks s d = [(d, LockMode.write)]) ∧
    (s ≠ d → descendingNames (copyObjectLocks s d) = true ∧
      (s, LockMode.read) ∈ copyObjectLocks s d ∧
      (d, LockMode.write) ∈ copyObjectLocks s d ∧
      (copyObjectLocks s d).length = 2) := by
  constructor
  · intro h
    subst h
    simp [copyObjectLocks]
  · intro h
    by_cases hlt : strLtB s d = true
    · have hcmp : goCompare s d = -1 := by simp [goCompare, hlt]
      simp [copyObjectLocks, h, hcmp, descendingNames, hlt]
    · have hlt' : strLtB s d = false := by simpa using hlt
      have hgt : strLtB d s = true := strLtB_false_of_ne hlt' h
      have hcmp : goCompare s d = 1 := by simp [goCompare, hlt', h]
      simp [copyObjectLocks, h, hcmp, descendingNames, hgt]

/-- Witness for `c4_locks_descending` at the distinct names "a" and "b". -/
theorem c4_locks_descending_witness :
    descendingNames (copyObjectLocks "a" "b") = true ∧
    ("a", LockMode.read) ∈ copyObjectLocks "a" "b" ∧
    ("b", LockMode.write) ∈ copyObjectLocks "a" "b" ∧
    (copyObjectLocks "a" "b").length = 2 :=
  (c4_locks_descending "a" "b").2 (by decide)

/-! ## C8: DAG-get integrity -/

/-- C8: `crdtDAGSyncer.Get` returns a decoded node only when the CID
recomputed from the returned bytes equals the requested CID, and whenever the
recomputed CID differs it fails with the CID-mismatch error and returns no
data. -/
theorem c8_get_integrity {Node : Type} (cidFn : List Nat → String)
    (decodeFn : List Nat → Option Node) (hasBlocks : List String)
    (resp : Option (List Nat)) (c : String) :
    (∀ n st, crdtGet cidFn decodeFn hasBlocks resp c = .ok (n, st) →
      ∃ raw, resp = some raw ∧ cidFn raw = c) ∧
    (∀ raw, resp = some raw → cidFn raw ≠ c →
      crdtGet cidFn decodeFn hasBlocks resp c = .error .cidMismatch) := by
  constructor
  · intro n st h
    match hresp : resp with
    | none => simp [crdtGet] at h
    | some raw =>
      refine ⟨raw, rfl, ?_⟩
      by_contra hne
      simp [crdtGet, hne] at h
  · intro raw hresp hne
    subst hresp
    simp [crdtGet, hne]

/-- Witness for `c8_get_integrity`: a reply whose recomputed CID "k" differs
from the requested CID "x" is rejected with the CID-mismatch error. -/
theorem c8_get_integrity_witness :
    crdtGet (fun _ => "k") (fun _ => some (0 : Nat)) [] (some [3]) "x" =
      .error DagGetErr.cidMismatch :=
  (c8_get_integrity (fun _ => "k") (fun _ => some (0 : Nat)) [] (some [3]) "x").2
    [3] rfl (by decide)

/-! ## C1: ListObjects filter -/

/-- A bucket "b" holding one object named "a". -/
def stC1 : LedgerState :=
  { buckets := [("b",
      { name := "b", created := 0, location := "",
        objects := [("a",
          { dataHash := "h",
            objectInfo := { zeroSxObjectInfo with bucket := "b", name := "a", size_ := 1 } })] })],
    dag := [("h", [7])],
    multipartUploads := none }

/-- C1: the `startsFrom` comparison of `GetObjectInfos` is reversed — it keeps
a name iff `strings.Compare(startsFrom, name) >= 0`, i.e. `name ≤ startAfter`.
With the `ListObjects` arguments (`startAfter = ""`) nothing is listed even
though object "a" exists, and with `startAfter = "b"` the name "a" is
returned although "a" is not lexicographically greater than "b" — refuting
the claim. -/
theorem c1_list_filter_reversed :
    getObjectInfos stC1 "b" "" "" 0 = .ok [] ∧
    getObjectInfos stC1 "b" "" "b" 0 =
      .ok [{ zeroSxObjectInfo with bucket := "b", name := "a", size_ := 1 }] ∧
    strLtB "b" "a" = false := by
  refine ⟨rfl, rfl, rfl⟩

/-! ## C9: multipart totality -/

/-- A state with bucket "b" and no multipart uploads. -/
def stC9 : LedgerState :=
  { buckets := [("b", { name := "b", created := 0, location := "", objects := [] })],
    dag := [], multipartUploads := none }

/-- The `ObjectInfo` of a multipart upload into bucket "b". -/
def infoC9 : SxObjectInfo := { zeroSxObjectInfo with bucket := "b", name := "big" }

/-- `stC9` after `NewMultipartUpload "u"`: the upload's parts map is nil. -/
def stC9a : LedgerState :=
  { stC9 with multipartUploads := some [("u",
      { objectInfo := infoC9, id := "u", objectParts := none })] }

/-- C9: the multipart operations are not total.  `PutObjectPart` on the upload
just created by `NewMultipartUpload` panics (assignment to an entry of the nil
`ObjectParts` map), and `MultipartIDExists`, `GetObjectParts` and
`AbortMultipartUpload` with an id absent from the non-empty uploads map panic
(nil-pointer dereference in `multipartExists`) instead of returning
`InvalidUploadID`. -/
theorem c9_multipart_ops_fault :
    newMultipartUpload stC9 "u" infoC9 = .ok stC9a ∧
    putObjectPart stC9a "b" "big" "ph" "u" 1 = .error SxErr.panicked ∧
    multipartIDExists stC9a "v" = some SxErr.panicked ∧
    getObjectParts stC9a "v" = .error SxErr.panicked ∧
    abortMultipartUpload stC9a "b" "v" = .error SxErr.panicked :=
  ⟨rfl, rfl, rfl, rfl, rfl⟩

/-! ## C6: terminal multipart states -/

/-- A state with bucket "b" and no multipart uploads. -/
def stC6 : LedgerState :=
  { buckets := [("b", { name := "b", created := 0, location := "", objects := [] })],
    dag := [], multipartUploads := none }

/-- The `ObjectInfo` of a multipart upload into bucket "b". -/
def infoC6 : SxObjectInfo := { zeroSxObjectInfo with bucket := "b", name := "o" }

/-- `stC6` after `NewMultipartUpload "u"`. -/
def stC6a : LedgerState :=
  { stC6 with multipartUploads := some [("u",
      { objectInfo := infoC6, id := "u", objectParts := none })] }

/-- `stC6a` after `AbortMultipartUpload "u"`: the uploads map is empty but
non-nil. -/
def stC6b : LedgerState := { stC6 with multipartUploads := some [] }

/-- C6: after an upload is aborted, `PutObjectPart` with the aborted id does
fail with `InvalidUploadID`, but a second `AbortMultipartUpload` (and
`MultipartIDExists`) with that id dereferences a nil pointer and panics
instead of failing with `InvalidUploadID` — refuting the claim that every
further multipart operation on a terminal id fails with `InvalidUploadID`. -/
theorem c6_terminal_id_not_uniform :
    newMultipartUpload stC6 "u" infoC6 = .ok stC6a ∧
    abortMultipartUpload stC6a "b" "u" = .ok stC6b ∧
    putObjectPart stC6b "b" "o" "ph" "u" 1 = .error SxErr.invalidUploadID ∧
    abortMultipartUpload stC6b "b" "u" = .error SxErr.panicked ∧
    multipartIDExists stC6b "u" = some SxErr.panicked :=
  ⟨rfl, rfl, rfl, rfl, rfl⟩

/-! ## C7: GetObject range handling -/

theorem int64wrap_eq_self {x : Int} (h0 : 0 ≤ x) (h1 : x < 2 ^ 63) : int64wrap x = x := by
  have e63 : (2 : Int) ^ 63 = 9223372036854775808 := by norm_num
  have e64 : (2 : Int) ^ 64 = 18446744073709551616 := by norm_num
  rw [e63] at h1
  unfold int64wrap
  rw [e63, e64]
  have h2 : (x + 9223372036854775808) % 18446744073709551616 =
      x + 9223372036854775808 :=
    Int.emod_eq_of_lt (by omega) (by omega)
  rw [h2]
  omega

theorem getObjectRange_ok (objData : List Nat) (startOffset length : Int)
    (hs : 0 ≤ startOffset) (hl : 0 ≤ length) (hsum : startOffset + length < 2 ^ 63)
    (hle : startOffset + length ≤ (objData.length : Int)) :
    getObjectRange objData startOffset length =
      .ok ((objData.drop startOffset.toNat).take length.toNat) := by
  simp only [getObjectRange]
  rw [int64wrap_eq_self (by omega) hsum]
  rw [if_neg (by omega)]
  rw [if_pos (⟨hs, by omega⟩ : 0 ≤ startOffset ∧ startOffset ≤ startOffset + length)]
  have harg : startOffset + length - startOffset = length := by omega
  rw [harg]

theorem getObjectRange_invalid (objData : List Nat) (startOffset length : Int)
    (hs : 0 ≤ startOffset) (hsum : startOffset + length < 2 ^ 63)
    (hgt : (objData.length : Int) < startOffset + length) :
    getObjectRange objData startOffset length =
      .error (.invalidRange startOffset (startOffset + length) objData.length) := by
  simp only [getObjectRange]
  rw [int64wrap_eq_self (by omega) hsum]
  rw [if_pos hgt]

/-- C7 (amended): for an existing object of size `n` and a requested range
with `0 ≤ startOffset`, `0 ≤ length` and `startOffset + length` within
`int64` range, `GetObject` fails with `InvalidRange` iff
`startOffset + length > n`, and otherwise writes exactly the object's bytes
from `startOffset` to `startOffset + length`. -/
theorem c7_get_range_check (st : LedgerState) (b o : String) (objData : List Nat)
    (startOffset length : Int)
    (hobj : objectData st b o = .ok objData)
    (hs : 0 ≤ startOffset) (hl : 0 ≤ length)
    (hsum : startOffset + length < 2 ^ 63) :
    (xGetObject st b o startOffset length =
        .error (.invalidRange startOffset (startOffset + length) objData.length) ↔
      (objData.length : Int) < startOffset + length) ∧
    (startOffset + length ≤ (objData.length : Int) →
      xGetObject st b o startOffset length =
        .ok ((objData.drop startOffset.toNat).take length.toNat)) := by
  have hx : xGetObject st b o startOffset length =
      getObjectRange objData startOffset length := by
    simp only [xGetObject, hobj]
  constructor
  · constructor
    · intro heq
      by_contra hng
      have hle : startOffset + length ≤ (objData.length : Int) := by omega
      rw [hx, getObjectRange_ok objData startOffset length hs hl hsum hle] at heq
      cases heq
    · intro hgt
      rw [hx]
      exact getObjectRange_invalid objData startOffset length hs hsum hgt
  · intro hle
    rw [hx]
    exact getObjectRange_ok objData startOffset length hs hl hsum hle

/-- A bucket "b" with an object "o" of one byte. -/
def stC7 : LedgerState :=
  { buckets := [("b",
      { name := "b", created := 0, location := "",
        objects := [("o",
          { dataHash := "h",
            objectInfo := { zeroSxObjectInfo with bucket := "b", name := "o", size_ := 1 } })] })],
    dag := [("h", [7])],
    multipartUploads := none }

/-- C7 counterexample: on the one-byte object, the range `startOffset = -1`,
`length = 1` has `startOffset + length = 0 ≤ 1`, so the claim requires the
bytes to be written; instead the Go slice `objData[-1:0]` is out of bounds
and the code panics, returning neither `InvalidRange` nor any data. -/
theorem c7_counterexample :
    xGetObject stC7 "b" "o" (-1) 1 = .error SxErr.panicked ∧
    ¬ ((1 : Int) < -1 + 1) := by
  constructor
  · rfl
  · decide

/-- Witness for `c7_get_range_check`: reading `[0, 1)` of the one-byte object
returns its byte. -/
theorem c7_get_range_check_witness : xGetObject stC7 "b" "o" 0 1 = .ok [7] := by
  have h := (c7_get_range_check stC7 "b" "o" [7] 0 1 rfl (by decide) (by decide)
    (by norm_num)).2 (by decide)
  simpa using h

/-! ## C2: PutObject then GetObject round trip -/

theorem applyHeader_size (oi : SxObjectInfo) (kv : String × String) :
    (applyHeader oi kv).size_ = oi.size_ := by
  unfold applyHeader
  repeat first | rfl | split

theorem foldl_applyHeader_size (ud : List (String × String)) (oi : SxObjectInfo) :
    (ud.foldl applyHeader oi).size_ = oi.size_ := by
  induction ud generalizing oi with
  | nil => rfl
  | cons kv t ih =>
    simp only [List.foldl_cons]
    rw [ih, applyHeader_size]

theorem newObjectInfo_size (bucket object : String) (size : Nat)
    (ud : List (String × String)) (isTest : Bool) (now : Nat) :
    (newObjectInfo bucket object size ud isTest now).size_ = (size : Int) := by
  simp only [newObjectInfo]
  rw [foldl_applyHeader_size]

/-- C2: if `PutObject(b, o, bytes)` succeeds, then `GetObject(b, o)` over the
full range `[0, len(bytes))` returns exactly `bytes`, and both the stored
object record's `ObjectInfo` and the returned `ObjectInfo` carry size
`len(bytes)`. -/
theorem c2_put_then_get (st : LedgerState) (b o : String) (data : List Nat)
    (userDefined : List (String × String)) (isTest : Bool) (now : Nat)
    (st' : LedgerState) (info : SxObjectInfo)
    (hlen : (data.length : Int) < 2 ^ 63)
    (hput : xPutObject st b o data userDefined isTest now = .ok (st', info)) :
    xGetObject st' b o 0 (data.length : Int) = .ok data ∧
    ∃ obj, lsObject st' b o = .ok (some obj) ∧
      obj.objectInfo.size_ = (data.length : Int) ∧
      info.size_ = (data.length : Int) := by
  cases hl : lookupA st.buckets b with
  | none =>
    rw [xPutObject, if_pos (by simp [sxBucketExists, hl])] at hput
    cases hput
  | some bRec =>
    have hbe : sxBucketExists st b = true := by simp [sxBucketExists, hl]
    rw [xPutObject, if_neg (by simp [hbe])] at hput
    simp only [ipfsSaveBytesM, lsPutObject] at hput
    rw [hl] at hput
    obtain ⟨hst, hinfo⟩ : _ ∧ _ := by
      simpa using hput
    subst hst
    subst hinfo
    constructor
    · simp only [xGetObject, objectData, lsObject, lookupA_insertA_self]
      rw [getObjectRange_ok data 0 (data.length : Int) (by omega) (by omega)
        (by omega) (by omega)]
      simp
    · refine ⟨⟨cidOf data, newObjectInfo b o data.length userDefined isTest now⟩, ?_, ?_, ?_⟩
      · simp only [lsObject, lookupA_insertA_self]
      · exact newObjectInfo_size b o data.length userDefined isTest now
      · exact newObjectInfo_size b o data.length userDefined isTest now

/-- A state holding the empty bucket "b". -/
def stC2w : LedgerState :=
  { buckets := [("b", { name := "b", created := 0, location := "", objects := [] })],
    dag := [], multipartUploads := none }

/-- The `ObjectInfo` `PutObject` builds for two bytes under `isTest`. -/
def infoC2w : SxObjectInfo :=
  { bucket := "b", name := "o", size_ := 2, modTime := 0, contentEncoding := "",
    contentDisposition := "", contentLanguage := "", contentType := "" }

/-- `stC2w` after `PutObject "b" "o" [1, 2]`. -/
def stC2w' : LedgerState :=
  { buckets := [("b",
      { name := "b", created := 0, location := "",
        objects := [("o", { dataHash := "cid-1-2", objectInfo := infoC2w })] })],
    dag := [("cid-1-2", [1, 2])],
    multipartUploads := none }

/-- Witness for `c2_put_then_get` at a concrete two-byte put. -/
theorem c2_put_then_get_witness :
    xGetObject stC2w' "b" "o" 0 2 = .ok [1, 2] ∧
    ∃ obj, lsObject stC2w' "b" "o" = .ok (some obj) ∧
      obj.objectInfo.size_ = 2 ∧ infoC2w.size_ = 2 :=
  c2_put_then_get stC2w "b" "o" [1, 2] [] true 0 stC2w' infoC2w (by norm_num) rfl

/-! ## C5: CopyObject dataHash preservation and source frame -/

/-- C5 (amended): a successful `CopyObject(s, so, d, do)` yields a destination
object record with the same `dataHash` as the source record, and whenever the
destination `(bucket, object)` pair differs from the source pair, the source
bucket's entry for the source object — and hence the source object record —
is unchanged. -/
theorem c5_copy (st : LedgerState) (s so d dObj : String) (now : Nat)
    (st' : LedgerState) (info : SxObjectInfo)
    (h : xCopyObject st s so d dObj now = .ok (st', info)) :
    (∃ objSrc objDst, lsObject st s so = .ok (some objSrc) ∧
      lsObject st' d dObj = .ok (some objDst) ∧
      objDst.dataHash = objSrc.dataHash) ∧
    ((d, dObj) ≠ (s, so) → lsObject st' s so = lsObject st s so) := by
  by_cases hex : sxBucketExists st d = true
  case neg =>
    rw [xCopyObject, if_pos (by simpa using hex)] at h
    cases h
  case pos =>
  rw [xCopyObject, if_neg (by simp [hex])] at h
  cases hsrc : lsObject st s so with
  | error e =>
    rw [hsrc] at h
    cases h
  | ok oo =>
    cases oo with
    | none =>
      rw [hsrc] at h
      cases h
    | some obj1 =>
      rw [hsrc] at h
      cases hd : lookupA st.buckets d with
      | none =>
        simp only [lsPutObject] at h
        rw [hd] at h
        cases h
      | some bd =>
        simp only [lsPutObject] at h
        rw [hd] at h
        obtain ⟨hst, hinfo⟩ : _ ∧ _ := by simpa using h
        subst hst
        subst hinfo
        constructor
        · refine ⟨obj1,
            ⟨obj1.dataHash, { obj1.objectInfo with name := dObj, bucket := d, modTime := now }⟩,
            rfl, ?_, rfl⟩
          simp only [lsObject, lookupA_insertA_self]
        · intro hne
          by_cases hds : d = s
          · subst hds
            have hdo : dObj ≠ so := fun hc => hne (by rw [hc])
            simp only [lsObject, hd] at hsrc
            simp only [lsObject, lookupA_insertA_self]
            rw [lookupA_insertA_ne _ _ _ _ hdo]
            exact hsrc
          · simp only [lsObject] at hsrc
            simp only [lsObject]
            rw [lookupA_insertA_ne _ _ _ _ hds]
            exact hsrc

/-- The `ObjectInfo` of the C5 source object. -/
def infoC5 : SxObjectInfo :=
  { bucket := "b", name := "o", size_ := 1, modTime := 0, contentEncoding := "",
    contentDisposition := "", contentLanguage := "", contentType := "" }

/-- The source object of the C5 scenarios: one byte at CID "h". -/
def objC5 : SxObject := { dataHash := "h", objectInfo := infoC5 }

/-- A bucket "b" holding `objC5` under name "o". -/
def stC5 : LedgerState :=
  { buckets := [("b",
      { name := "b", created := 0, location := "", objects := [("o", objC5)] })],
    dag := [("h", [7])],
    multipartUploads := none }

/-- `infoC5` after a self-copy at time 1: only `modTime` changes. -/
def infoC5self : SxObjectInfo :=
  { bucket := "b", name := "o", size_ := 1, modTime := 1, contentEncoding := "",
    contentDisposition := "", contentLanguage := "", contentType := "" }

/-- `objC5` after a self-copy at time 1: same `dataHash`, new `modTime`. -/
def objC5self : SxObject := { dataHash := "h", objectInfo := infoC5self }

/-- `stC5` after `CopyObject("b", "o", "b", "o")` at time 1. -/
def stC5self : LedgerState :=
  { buckets := [("b",
      { name := "b", created := 0, location := "", objects := [("o", objC5self)] })],
    dag := [("h", [7])],
    multipartUploads := none }

/-- C5 counterexample: copying an object onto itself succeeds and overwrites
the source bucket's entry for the source object with a record carrying a new
`ModTime`, so the source entry is not unchanged as the claim states. -/
theorem c5_counterexample :
    xCopyObject stC5 "b" "o" "b" "o" 1 = .ok (stC5self, infoC5self) ∧
    lsObject stC5 "b" "o" = .ok (some objC5) ∧
    lsObject stC5self "b" "o" = .ok (some objC5self) ∧
    objC5self ≠ objC5 := by
  refine ⟨rfl, rfl, rfl, by decide⟩

/-- The `ObjectInfo` of the witness destination object. -/
def infoC5w : SxObjectInfo :=
  { bucket := "b", name := "p", size_ := 1, modTime := 1, contentEncoding := "",
    contentDisposition := "", contentLanguage := "", contentType := "" }

/-- The destination record of the witness copy `("b", "o") → ("b", "p")`. -/
def objC5w : SxObject := { dataHash := "h", objectInfo := infoC5w }

/-- `stC5` after `CopyObject("b", "o", "b", "p")` at time 1. -/
def stC5w' : LedgerState :=
  { buckets := [("b",
      { name := "b", created := 0, location := "",
        objects := [("o", objC5), ("p", objC5w)] })],
    dag := [("h", [7])],
    multipartUploads := none }

/-- Witness for `c5_copy` at the concrete copy `("b", "o") → ("b", "p")`. -/
theorem c5_copy_witness :
    (∃ objSrc objDst, lsObject stC5 "b" "o" = .ok (some objSrc) ∧
      lsObject stC5w' "b" "p" = .ok (some objDst) ∧
      objDst.dataHash = objSrc.dataHash) ∧
    (("b", "p") ≠ ("b", "o") → lsObject stC5w' "b" "o" = lsObject stC5 "b" "o") :=
  c5_copy stC5 "b" "o" "b" "p" 1 stC5w' infoC5w rfl
